import Mathlib

/-!
Shallow embedding of `examples/nvme/hotplug/hotplug.c` (the SPDK NVMe hotplug
example) together with proofs about it.

Modelling conventions:

* External collaborators (the NVMe transport, the DPDK mempool, `getopt` and
  `atoi`) are modelled as inputs: every call into a collaborator that returns
  a status code or delivers events takes that status or event list as an
  explicit parameter of the Lean function.
* The `uint64_t` fields of `struct dev_ctx` are modelled as `Nat`, with the
  arithmetic the C program performs reduced modulo `2 ^ 64` at each operation,
  so wrap-around is represented faithfully.
* `Option` models process termination: `none` corresponds either to `exit(1)`
  (task-pool exhaustion inside `submit_single_io`) or to a loop whose
  environment trace is too short to let it reach its exit condition.
* Ghost counters `gets`, `puts` and `reads` count the calls made to
  `rte_mempool_get`, `rte_mempool_put` and `spdk_nvme_ns_cmd_read`; they make
  task accounting and submission counts observable without altering behaviour.
* The `name` field of `struct dev_ctx` (a formatted model/serial string) is
  presentation-only and is omitted; controller handles are modelled as `Nat`.
-/

namespace Hotplug

/-- Modulus of `uint64_t` arithmetic. -/
def U64 : Nat := 2 ^ 64

/-- Addition of `uint64_t` values (wraps modulo `2 ^ 64`). -/
def u64add (a b : Nat) : Nat := (a + b) % U64

/-- Decrement of a `uint64_t` value (wraps at zero). -/
def u64dec (a : Nat) : Nat := (a + (U64 - 1)) % U64

/-- Global `g_io_size_bytes` (`static uint32_t`, fixed at 4096 in the source). -/
def g_io_size_bytes : Nat := 4096

/-- Global `g_queue_depth` (`static int`, fixed at 4 in the source). -/
def g_queue_depth : Nat := 4

/-- The fields of `struct dev_ctx` that carry state.  The opaque namespace and
queue-pair handles are not represented (a descriptor in the registry always
owns one queue pair); the controller handle is a `Nat`. -/
structure DevCtx where
  is_new : Bool
  is_removed : Bool
  is_draining : Bool
  ctrlr : Nat
  io_size_blocks : Nat
  size_in_ios : Nat
  io_completed : Nat
  prev_io_completed : Nat
  current_queue_depth : Nat
  offset_in_ios : Nat
  deriving DecidableEq

/-- State shared by all devices: the free-slot count of `task_pool`, plus
ghost call counters for `rte_mempool_get`, `rte_mempool_put` and
`spdk_nvme_ns_cmd_read`. -/
structure Shared where
  pool : Nat
  gets : Nat
  puts : Nat
  reads : Nat
  deriving DecidableEq

/-- One device together with the shared state, the unit the per-device
functions of the C program operate on. -/
structure EngineState where
  dev : DevCtx
  sh : Shared
  deriving DecidableEq

/-- `submit_single_io(dev)` from hotplug.c.  `rc` is the status returned by
the external `spdk_nvme_ns_cmd_read`.  `none` models `exit(1)` when
`rte_mempool_get` finds the pool empty.  The cursor `offset_in_ios` is
post-incremented (the read targets the pre-increment value) and reset to zero
when it reaches `size_in_ios`; on `rc ≠ 0` the task is returned to the pool
and `current_queue_depth` is untouched, on `rc = 0` it is incremented. -/
def submit_single_io (s : EngineState) (rc : Int) : Option EngineState :=
  if s.sh.pool = 0 then
    none
  else
    let sh1 : Shared := { s.sh with pool := s.sh.pool - 1, gets := s.sh.gets + 1 }
    let d1 : DevCtx := { s.dev with offset_in_ios := u64add s.dev.offset_in_ios 1 }
    let d2 : DevCtx :=
      if d1.offset_in_ios = d1.size_in_ios then { d1 with offset_in_ios := 0 } else d1
    let sh2 : Shared := { sh1 with reads := sh1.reads + 1 }
    if rc ≠ 0 then
      some { dev := d2, sh := { sh2 with pool := sh2.pool + 1, puts := sh2.puts + 1 } }
    else
      some { dev := { d2 with current_queue_depth := u64add d2.current_queue_depth 1 },
             sh := sh2 }

/-- `task_complete(task)` from hotplug.c: decrement `current_queue_depth`,
increment `io_completed`, return the task to the pool, and resubmit exactly
when the device is neither draining nor removed.  `rc` is the status of the
resubmission's `spdk_nvme_ns_cmd_read` (unused when no resubmission occurs). -/
def task_complete (s : EngineState) (rc : Int) : Option EngineState :=
  let d : DevCtx := { s.dev with
    current_queue_depth := u64dec s.dev.current_queue_depth,
    io_completed := u64add s.dev.io_completed 1 }
  let sh : Shared := { s.sh with pool := s.sh.pool + 1, puts := s.sh.puts + 1 }
  if !d.is_draining && !d.is_removed then
    submit_single_io { dev := d, sh := sh } rc
  else
    some { dev := d, sh := sh }

/-- `check_io(dev)` from hotplug.c: `spdk_nvme_qpair_process_completions`
delivers some number of completions, each of which invokes `io_complete` and
hence `task_complete`.  The environment-chosen list `rcs` carries one entry
per delivered completion, the entry being the resubmission status. -/
def check_io (s : EngineState) : List Int → Option EngineState
  | [] => some s
  | rc :: rest =>
    match task_complete s rc with
    | none => none
    | some s' => check_io s' rest

/-- `submit_io(dev, queue_depth)` from hotplug.c: submit `queue_depth` single
I/Os; `f` supplies the read status for each submission. -/
def submit_io (s : EngineState) (queue_depth : Nat) (f : Nat → Int) : Option EngineState :=
  match queue_depth with
  | 0 => some s
  | n + 1 =>
    match submit_single_io s (f n) with
    | none => none
    | some s' => submit_io s' n f

/-- One iteration environment for `drain_io`: each element is the completion
batch delivered by one `check_io` call. -/
def drain_loop (batches : List (List Int)) (s : EngineState) : Option EngineState :=
  if s.dev.current_queue_depth = 0 then some s
  else
    match batches with
    | [] => none
    | b :: bs =>
      match check_io s b with
      | none => none
      | some s' => drain_loop bs s'

/-- `drain_io(dev)` from hotplug.c: set `is_draining`, then poll completions
until `current_queue_depth` reaches zero.  `none` when the supplied trace of
completion batches ends before the device is quiescent. -/
def drain_io (s : EngineState) (batches : List (List Int)) : Option EngineState :=
  drain_loop batches { s with dev := { s.dev with is_draining := true } }

/-- The data about a controller that `register_dev` obtains from the
transport: whether `spdk_nvme_ctrlr_get_ns(ctrlr, 1)` is non-NULL, whether
that namespace is active, its capacity in bytes, its sector size, and whether
`spdk_nvme_ctrlr_alloc_io_qpair` succeeds. -/
structure Candidate where
  ctrlr : Nat
  has_ns : Bool
  ns_active : Bool
  ns_size : Nat
  sector_size : Nat
  qpair_ok : Bool
  deriving DecidableEq

/-- `register_dev(ctrlr)` from hotplug.c, acting on the registry `g_devs`.
The returned `Bool` records whether `spdk_nvme_ctrlr_alloc_io_qpair` was
called.  A candidate with no active first namespace, capacity below
`g_io_size_bytes`, or sector size above `g_io_size_bytes` is discarded before
any queue pair is allocated; on the qpair-allocation failure path the device
is likewise discarded; otherwise a zero-initialised (`calloc`) descriptor
with the computed geometry is appended at the registry tail. -/
def register_dev (regs : List DevCtx) (c : Candidate) : List DevCtx × Bool :=
  if !(c.has_ns && c.ns_active) then
    (regs, false)
  else if c.ns_size < g_io_size_bytes || c.sector_size > g_io_size_bytes then
    (regs, false)
  else if !c.qpair_ok then
    (regs, true)
  else
    (regs ++ [{ is_new := true, is_removed := false, is_draining := false,
                ctrlr := c.ctrlr,
                io_size_blocks := g_io_size_bytes / c.sector_size,
                size_in_ios := c.ns_size / g_io_size_bytes,
                io_completed := 0, prev_io_completed := 0,
                current_queue_depth := 0, offset_in_ios := 0 }], true)

/-- `remove_cb(cb_ctx, ctrlr)` from hotplug.c: mark the first tracked
descriptor with this controller handle as removed and return; if no tracked
descriptor matches, detach the controller immediately.  The returned `Bool`
records whether `spdk_nvme_detach` was called by this invocation. -/
def remove_cb (regs : List DevCtx) (ctrlr : Nat) : List DevCtx × Bool :=
  match regs with
  | [] => ([], true)
  | d :: ds =>
    if d.ctrlr = ctrlr then
      ({ d with is_removed := true } :: ds, false)
    else
      let r := remove_cb ds ctrlr
      (d :: r.1, r.2)

/-- The removal sweep of `io_loop` (`TAILQ_FOREACH_SAFE` over `g_devs`):
every descriptor with `is_removed` set and `current_queue_depth == 0` is
passed to `unregister_dev`.  Returns the remaining registry and, in order,
the descriptors that were unregistered. -/
def removal_sweep : List DevCtx → List DevCtx × List DevCtx
  | [] => ([], [])
  | d :: ds =>
    let r := removal_sweep ds
    if d.is_removed && d.current_queue_depth = 0 then
      (r.1, d :: r.2)
    else
      (d :: r.1, r.2)

/-- One hotplug event delivered synchronously by `spdk_nvme_probe`: an attach
(leading to `attach_cb`, which calls `register_dev`) or a removal (leading to
`remove_cb`). -/
inductive HotplugEv where
  | attach (c : Candidate)
  | remove (ctrlr : Nat)
  deriving DecidableEq

/-- The callbacks run by one `spdk_nvme_probe` call: each attach event runs
`register_dev` (via `attach_cb`), each removal event runs `remove_cb`. -/
def process_probe (regs : List DevCtx) : List HotplugEv → List DevCtx
  | [] => regs
  | HotplugEv.attach c :: evs => process_probe (register_dev regs c).1 evs
  | HotplugEv.remove h :: evs => process_probe (remove_cb regs h).1 evs

/-- `print_stats()` from hotplug.c: its only state effect is setting
`prev_io_completed := io_completed` on every registered descriptor. -/
def print_stats (regs : List DevCtx) : List DevCtx :=
  regs.map fun d => { d with prev_io_completed := d.io_completed }

/-- Environment for servicing one device during one pass of `io_loop`:
the read statuses for the initial burst (when the device is new) and the
completion batch delivered by `check_io`. -/
structure DevEnv where
  burst_rc : Nat → Int
  compl_rcs : List Int

/-- Environment for one pass of `io_loop`'s `while (1)` body: per-device
service environments (indexed by position in the registry), the result and
events of this pass's `spdk_nvme_probe` call, whether `spdk_get_ticks()` has
passed `tsc_end`, and whether the stats interval has elapsed. -/
structure PassEnv where
  denv : Nat → DevEnv
  probe_ok : Bool
  probe_evs : List HotplugEv
  time_up : Bool
  stats_due : Bool

/-- The per-device body of the first `TAILQ_FOREACH` in `io_loop`: submit the
initial burst of `g_queue_depth` I/Os and clear `is_new` when the device is
new, then `check_io`. -/
def service_dev (s : EngineState) (env : DevEnv) : Option EngineState :=
  let step1 : Option EngineState :=
    if s.dev.is_new then
      match submit_io s g_queue_depth env.burst_rc with
      | none => none
      | some s' => some { s' with dev := { s'.dev with is_new := false } }
    else
      some s
  match step1 with
  | none => none
  | some s' => check_io s' env.compl_rcs

/-- The first `TAILQ_FOREACH` of `io_loop` over the whole registry, threading
the shared pool state through the devices in registry order. -/
def service_devs (sh : Shared) : List DevCtx → (Nat → DevEnv) → Nat → Option (Shared × List DevCtx)
  | [], _, _ => some (sh, [])
  | d :: ds, denv, i =>
    match service_dev { dev := d, sh := sh } (denv i) with
    | none => none
    | some s' =>
      match service_devs s'.sh ds denv (i + 1) with
      | none => none
      | some r => some (r.1, s'.dev :: r.2)

/-- One pass of `io_loop`'s `while (1)` body.  The result's `Bool` is true
when the pass `break`s out of the loop (probe failure or time expiry).
The probe's callbacks run before its return code is inspected; on probe
failure the pass breaks immediately, skipping the removal sweep. -/
def io_pass (sh : Shared) (devs : List DevCtx) (env : PassEnv) :
    Option (Shared × List DevCtx × Bool) :=
  match service_devs sh devs env.denv 0 with
  | none => none
  | some r =>
    let devs1 := process_probe r.2 env.probe_evs
    if !env.probe_ok then
      some (r.1, devs1, true)
    else
      let devs2 := (removal_sweep devs1).1
      if env.time_up then
        some (r.1, devs2, true)
      else if env.stats_due then
        some (r.1, print_stats devs2, false)
      else
        some (r.1, devs2, false)

/-- The `while (1)` loop of `io_loop`, one `PassEnv` per executed pass.
`none` when the trace ends before a pass breaks out of the loop. -/
def run_passes (sh : Shared) (devs : List DevCtx) : List PassEnv → Option (Shared × List DevCtx)
  | [] => none
  | e :: es =>
    match io_pass sh devs e with
    | none => none
    | some r => if r.2.2 then some (r.1, r.2.1) else run_passes r.1 r.2.1 es

/-- The shutdown phase of `io_loop` (final `TAILQ_FOREACH_SAFE`): drain each
remaining device, then unregister it.  `denv i` supplies the completion
batches for draining the `i`-th device.  Returns the shared state and, in
order, the descriptor states at the moment `unregister_dev` was called. -/
def shutdown_phase (sh : Shared) : List DevCtx → (Nat → List (List Int)) → Nat →
    Option (Shared × List DevCtx)
  | [], _, _ => some (sh, [])
  | d :: ds, denv, i =>
    match drain_io { dev := d, sh := sh } (denv i) with
    | none => none
    | some s' =>
      match shutdown_phase s'.sh ds denv (i + 1) with
      | none => none
      | some r => some (r.1, s'.dev :: r.2)

/-- `io_loop()` from hotplug.c: run the main loop, then drain and unregister
every remaining device, and return 0.  The result carries the returned `int`,
the final shared state and the final registry (empty: the shutdown phase
unregisters every descriptor). -/
def io_loop (sh : Shared) (devs : List DevCtx) (passes : List PassEnv)
    (sdenv : Nat → List (List Int)) : Option (Int × Shared × List DevCtx) :=
  match run_passes sh devs passes with
  | none => none
  | some r =>
    match shutdown_phase r.1 r.2 sdenv 0 with
    | none => none
    | some r' => some (0, r'.1, [])

/-- One result of the `getopt(argc, argv, "t:")` loop in `parse_args`:
either option `t` was returned (with `v = atoi(optarg)`) or getopt returned
something the switch's `default` case handles (an unknown option or a `-t`
with its required argument missing). -/
inductive OptEv where
  | flag_t (v : Int)
  | unknown
  deriving DecidableEq

/-- The `while ((op = getopt(...)) != -1)` loop of `parse_args`, carrying
`g_time_in_sec`, followed by the `if (!g_time_in_sec)` check.  Returns
(return code, final `g_time_in_sec`). -/
def parse_args_loop : List OptEv → Int → Int × Int
  | [], t => if t = 0 then (1, t) else (0, t)
  | OptEv.flag_t v :: evs, _ => parse_args_loop evs v
  | OptEv.unknown :: _, t => (1, t)

/-- `parse_args(argc, argv)` from hotplug.c over the stream of getopt
results; `g_time_in_sec` starts at 0. -/
def parse_args (evs : List OptEv) : Int × Int :=
  parse_args_loop evs 0

/-- The controller handles of the attach events in a probe event list. -/
def attach_ctrlrs : List HotplugEv → List Nat
  | [] => []
  | HotplugEv.attach c :: evs => c.ctrlr :: attach_ctrlrs evs
  | HotplugEv.remove _ :: evs => attach_ctrlrs evs

/-- The per-device invariant of the main loop: a device still in its `New`
state has no outstanding I/O, and the outstanding count never exceeds the
configured queue depth. -/
def DevInv (d : DevCtx) : Prop :=
  (d.is_new = true → d.current_queue_depth = 0) ∧
  d.current_queue_depth ≤ g_queue_depth

/-- Environment validity for one completion batch: the transport can only
deliver a completion for a device that actually has outstanding I/O
(`current_queue_depth > 0` at each delivery). -/
def validCompl : Option EngineState → List Int → Bool
  | _, [] => true
  | none, _ :: _ => true
  | some s, rc :: rest =>
    decide (0 < s.dev.current_queue_depth) && validCompl (task_complete s rc) rest

/-- Environment validity for servicing one device in one pass: the
completion batch is valid for the state reached after the initial burst (if
the device is new). -/
def valid_service (s : EngineState) (env : DevEnv) : Bool :=
  if s.dev.is_new then
    match submit_io s g_queue_depth env.burst_rc with
    | none => true
    | some s1 =>
      validCompl (some { s1 with dev := { s1.dev with is_new := false } }) env.compl_rcs
  else
    validCompl (some s) env.compl_rcs

/-- Environment validity for the per-device service loop over the whole
registry, threading the shared state exactly as `service_devs` does. -/
def valid_service_devs (sh : Shared) : List DevCtx → (Nat → DevEnv) → Nat → Bool
  | [], _, _ => true
  | d :: ds, denv, i =>
    valid_service { dev := d, sh := sh } (denv i) &&
    (match service_dev { dev := d, sh := sh } (denv i) with
     | none => true
     | some s' => valid_service_devs s'.sh ds denv (i + 1))

/-- Environment validity for one whole pass of the main loop. -/
def valid_pass (sh : Shared) (devs : List DevCtx) (env : PassEnv) : Bool :=
  valid_service_devs sh devs env.denv 0

/-- Environment validity for a whole run of main-loop passes. -/
def valid_passes (sh : Shared) (devs : List DevCtx) : List PassEnv → Bool
  | [] => true
  | e :: es =>
    valid_pass sh devs e &&
    (match io_pass sh devs e with
     | none => true
     | some r => r.2.2 || valid_passes r.1 r.2.1 es)

/-! Arithmetic facts about the `uint64_t` operations. -/

lemma U64_eq : U64 = 18446744073709551616 := rfl

lemma u64add_one (a : Nat) (h : a + 1 < U64) : u64add a 1 = a + 1 := by
  unfold u64add
  rw [U64_eq] at h ⊢
  omega

lemma u64dec_of_pos (a : Nat) (h0 : 0 < a) (h : a < U64) : u64dec a = a - 1 := by
  unfold u64dec
  rw [U64_eq] at h ⊢
  omega

/-- Handy description of the cursor update performed by `submit_single_io`. -/
lemma cursor_next (a n : Nat) (h : a + 1 < U64) :
    (if u64add a 1 = n then 0 else u64add a 1) = (if a + 1 = n then 0 else a + 1) := by
  rw [u64add_one a h]

/-! Claim C6: behaviour of `submit_single_io` on read-submission failure and
success. -/

/-- C6: with a task available in the pool, `submit_single_io` issues exactly
one read (no retry); when the read returns a nonzero code the acquired task
is put back (`gets` and `puts` both advance by one, the free count is
restored) and `current_queue_depth` is unchanged; when the read returns zero
`current_queue_depth` is incremented by exactly one and the task stays in
flight. -/
theorem c6_submit_single_io_failure_success (s : EngineState) (rc : Int)
    (hpool : 0 < s.sh.pool) (hq : s.dev.current_queue_depth + 1 < U64) :
    ∃ s', submit_single_io s rc = some s' ∧
      s'.sh.reads = s.sh.reads + 1 ∧
      (rc ≠ 0 →
        s'.dev.current_queue_depth = s.dev.current_queue_depth ∧
        s'.sh.pool = s.sh.pool ∧
        s'.sh.gets = s.sh.gets + 1 ∧
        s'.sh.puts = s.sh.puts + 1) ∧
      (rc = 0 →
        s'.dev.current_queue_depth = s.dev.current_queue_depth + 1 ∧
        s'.sh.pool = s.sh.pool - 1 ∧
        s'.sh.gets = s.sh.gets + 1 ∧
        s'.sh.puts = s.sh.puts) := by
  have hp : ¬ s.sh.pool = 0 := by omega
  unfold submit_single_io
  by_cases hrc : rc = 0 <;>
    by_cases hoff : u64add s.dev.offset_in_ios 1 = s.dev.size_in_ios <;>
    simp [hp, hrc, hoff, u64add_one _ hq] <;>
    omega

/-! Claim C3: attach-time validation in `register_dev`. -/

/-- C3: a candidate whose first namespace is missing or inactive, whose
capacity is below the configured I/O size, or whose sector size exceeds the
configured I/O size is discarded with the registry unchanged and without
`spdk_nvme_ctrlr_alloc_io_qpair` ever being called; a candidate passing
validation (with queue-pair allocation succeeding) is appended at the
registry tail with `size_in_ios = capacity / io_size` and
`io_size_blocks = io_size / sector_size`. -/
theorem c3_register_dev_validation :
    (∀ regs c, (¬(c.has_ns = true ∧ c.ns_active = true) ∨
        c.ns_size < g_io_size_bytes ∨ g_io_size_bytes < c.sector_size) →
      register_dev regs c = (regs, false)) ∧
    (∀ regs c, c.has_ns = true → c.ns_active = true →
      g_io_size_bytes ≤ c.ns_size → c.sector_size ≤ g_io_size_bytes →
      c.qpair_ok = true →
      register_dev regs c =
        (regs ++ [{ is_new := true, is_removed := false, is_draining := false,
                    ctrlr := c.ctrlr,
                    io_size_blocks := g_io_size_bytes / c.sector_size,
                    size_in_ios := c.ns_size / g_io_size_bytes,
                    io_completed := 0, prev_io_completed := 0,
                    current_queue_depth := 0, offset_in_ios := 0 }], true)) := by
  constructor
  · intro regs c h
    unfold register_dev
    rcases h with h | h | h
    · have hb : (c.has_ns && c.ns_active) = false := by
        cases hns : c.has_ns <;> cases hact : c.ns_active <;> simp_all
      simp [hb]
    · have : (decide (c.ns_size < g_io_size_bytes) ||
          decide (g_io_size_bytes < c.sector_size)) = true := by
        simp [h]
      by_cases hb : (c.has_ns && c.ns_active) = true <;> simp [hb, this]
    · have : (decide (c.ns_size < g_io_size_bytes) ||
          decide (g_io_size_bytes < c.sector_size)) = true := by
        simp [h]
      by_cases hb : (c.has_ns && c.ns_active) = true <;> simp [hb, this]
  · intro regs c hns hact hsz hsec hq
    unfold register_dev
    simp [hns, hact, hq, Nat.not_lt.mpr hsz, Nat.not_lt.mpr hsec]

/-- Concrete instances of C3: a candidate with a 100-byte namespace is
rejected leaving the registry empty and no queue pair allocated; a valid
candidate (512-byte sectors, 409600-byte capacity) is appended with the
computed geometry. -/
theorem c3_witness :
    register_dev []
      { ctrlr := 1, has_ns := true, ns_active := true, ns_size := 100,
        sector_size := 512, qpair_ok := true } = ([], false) ∧
    register_dev []
      { ctrlr := 2, has_ns := true, ns_active := true, ns_size := 409600,
        sector_size := 512, qpair_ok := true } =
      ([] ++ [{ is_new := true, is_removed := false, is_draining := false,
                ctrlr := 2, io_size_blocks := 8, size_in_ios := 100,
                io_completed := 0, prev_io_completed := 0,
                current_queue_depth := 0, offset_in_ios := 0 }], true) :=
  ⟨c3_register_dev_validation.1 _ _ (Or.inr (Or.inl (by decide))),
   c3_register_dev_validation.2 _ _ rfl rfl (by decide) (by decide) rfl⟩

/-! Claim C5: the circular cursor `offset_in_ios`. -/

/-- C5: a descriptor inserted by `register_dev` starts with
`offset_in_ios = 0` and `size_in_ios ≥ 1`, and every `submit_single_io`
advances the cursor by one, resetting it to zero exactly when it reaches
`size_in_ios`, so `offset_in_ios < size_in_ios` is preserved by every
submission. -/
theorem c5_cursor_in_range :
    (∀ regs c d, (register_dev regs c).1 = regs ++ [d] →
      d.offset_in_ios = 0 ∧ 1 ≤ d.size_in_ios) ∧
    (∀ s rc s', 1 ≤ s.dev.size_in_ios → s.dev.size_in_ios < U64 →
      s.dev.offset_in_ios < s.dev.size_in_ios →
      submit_single_io s rc = some s' →
      s'.dev.size_in_ios = s.dev.size_in_ios ∧
      s'.dev.offset_in_ios =
        (if s.dev.offset_in_ios + 1 = s.dev.size_in_ios then 0
         else s.dev.offset_in_ios + 1) ∧
      s'.dev.offset_in_ios < s'.dev.size_in_ios) := by
  constructor
  · intro regs c d h
    unfold register_dev at h
    split_ifs at h with h1 h2 h3 <;> simp at h
    simp at h2
    subst h
    refine ⟨rfl, ?_⟩
    show 1 ≤ c.ns_size / g_io_size_bytes
    rw [Nat.one_le_div_iff (by decide : 0 < g_io_size_bytes)]
    omega
  · intro s rc s' hsz hszU hoff hsub
    have hp : ¬ s.sh.pool = 0 := by
      intro hp
      unfold submit_single_io at hsub
      simp [hp] at hsub
    have hadd : u64add s.dev.offset_in_ios 1 = s.dev.offset_in_ios + 1 := by
      apply u64add_one
      omega
    unfold submit_single_io at hsub
    by_cases hrc : rc = 0 <;>
      by_cases ho : u64add s.dev.offset_in_ios 1 = s.dev.size_in_ios <;>
      simp [hp, hrc, ho, hadd] at hsub <;>
      rw [← hsub] <;>
      simp [hadd] <;>
      rw [hadd] at ho <;>
      simp [ho] <;>
      omega

/-- Concrete instance of C5: registering a valid candidate yields cursor 0
with positive capacity, and a submission at the penultimate offset wraps the
cursor to zero. -/
theorem c5_witness :
    ((register_dev []
        { ctrlr := 2, has_ns := true, ns_active := true, ns_size := 409600,
          sector_size := 512, qpair_ok := true }).1 =
      [] ++ [{ is_new := true, is_removed := false, is_draining := false,
               ctrlr := 2, io_size_blocks := 8, size_in_ios := 100,
               io_completed := 0, prev_io_completed := 0,
               current_queue_depth := 0, offset_in_ios := 0 }] →
      ({ is_new := true, is_removed := false, is_draining := false,
         ctrlr := 2, io_size_blocks := 8, size_in_ios := 100,
         io_completed := 0, prev_io_completed := 0,
         current_queue_depth := 0, offset_in_ios := 0 } : DevCtx).offset_in_ios = 0 ∧
      1 ≤ ({ is_new := true, is_removed := false, is_draining := false,
             ctrlr := 2, io_size_blocks := 8, size_in_ios := 100,
             io_completed := 0, prev_io_completed := 0,
             current_queue_depth := 0, offset_in_ios := 0 } : DevCtx).size_in_ios) ∧
    ∃ s', submit_single_io
        { dev := { is_new := false, is_removed := false, is_draining := false,
                   ctrlr := 2, io_size_blocks := 8, size_in_ios := 100,
                   io_completed := 0, prev_io_completed := 0,
                   current_queue_depth := 0, offset_in_ios := 99 },
          sh := { pool := 4, gets := 0, puts := 0, reads := 0 } } 0 = some s' ∧
      s'.dev.offset_in_ios = 0 ∧ s'.dev.offset_in_ios < s'.dev.size_in_ios := by
  constructor
  · exact fun h => c5_cursor_in_range.1 [] _ _ h
  · have h := c5_cursor_in_range.2
      { dev := { is_new := false, is_removed := false, is_draining := false,
                 ctrlr := 2, io_size_blocks := 8, size_in_ios := 100,
                 io_completed := 0, prev_io_completed := 0,
                 current_queue_depth := 0, offset_in_ios := 99 },
        sh := { pool := 4, gets := 0, puts := 0, reads := 0 } } 0
    obtain ⟨s', hs'⟩ : ∃ s', submit_single_io
        { dev := { is_new := false, is_removed := false, is_draining := false,
                   ctrlr := 2, io_size_blocks := 8, size_in_ios := 100,
                   io_completed := 0, prev_io_completed := 0,
                   current_queue_depth := 0, offset_in_ios := 99 },
          sh := { pool := 4, gets := 0, puts := 0, reads := 0 } } 0 = some s' := by
      exact ⟨_, rfl⟩
    have h2 := h s' (by decide) (by decide) (by decide) hs'
    exact ⟨s', hs', by simpa using h2.2.1, h2.2.2⟩

/-! Claim C7: idempotence of the removal notification. -/

/-- C7: delivering `remove_cb` twice for the same controller has the same
effect on the registry (and the same immediate-detach decision) as delivering
it once, and for a controller not tracked in the registry each delivery
leaves the registry untouched and detaches immediately. -/
theorem c7_remove_cb_idempotent :
    (∀ regs c, remove_cb (remove_cb regs c).1 c = remove_cb regs c) ∧
    (∀ regs c, (∀ d ∈ regs, d.ctrlr ≠ c) → remove_cb regs c = (regs, true)) := by
  constructor
  · intro regs c
    induction regs with
    | nil => rfl
    | cons d ds ih =>
      by_cases hd : d.ctrlr = c
      · simp [remove_cb, hd]
      · simp [remove_cb, hd, ih]
  · intro regs c h
    induction regs with
    | nil => rfl
    | cons d ds ih =>
      have hd : d.ctrlr ≠ c := h d (by simp)
      have ih' := ih fun x hx => h x (by simp [hx])
      simp [remove_cb, hd, ih']

/-- Concrete instance of C7's untracked case: a registry holding controller 1
treats a removal notification for controller 9 as detach-without-change. -/
theorem c7_witness :
    remove_cb [{ is_new := true, is_removed := false, is_draining := false,
                 ctrlr := 1, io_size_blocks := 8, size_in_ios := 100,
                 io_completed := 0, prev_io_completed := 0,
                 current_queue_depth := 0, offset_in_ios := 0 }] 9 =
      ([{ is_new := true, is_removed := false, is_draining := false,
          ctrlr := 1, io_size_blocks := 8, size_in_ios := 100,
          io_completed := 0, prev_io_completed := 0,
          current_queue_depth := 0, offset_in_ios := 0 }], true) :=
  c7_remove_cb_idempotent.2 _ 9 (by intro d hd; simp at hd; simp [hd])

/-! Claim C2: behaviour of `task_complete`. -/

/-- C2: on every completion `task_complete` decrements the owning device's
`current_queue_depth` by one, increments `io_completed` by one, returns the
task to the pool (`puts` advances), and issues exactly one new submission
(`reads` advances by one, restoring the queue depth when the read succeeds)
if and only if the device is neither removed nor draining; otherwise the
resulting state is exactly the decremented one with the task back in the
pool. -/
theorem c2_task_complete (s : EngineState) (rc : Int)
    (h1 : 0 < s.dev.current_queue_depth) (h2 : s.dev.current_queue_depth < U64)
    (h3 : s.dev.io_completed + 1 < U64) :
    ∃ s', task_complete s rc = some s' ∧
      s'.dev.io_completed = s.dev.io_completed + 1 ∧
      (¬(s.dev.is_draining = false ∧ s.dev.is_removed = false) →
        s' = { dev := { s.dev with
                        current_queue_depth := s.dev.current_queue_depth - 1,
                        io_completed := s.dev.io_completed + 1 },
               sh := { s.sh with pool := s.sh.pool + 1, puts := s.sh.puts + 1 } }) ∧
      ((s.dev.is_draining = false ∧ s.dev.is_removed = false) →
        s'.sh.reads = s.sh.reads + 1 ∧
        s'.sh.gets = s.sh.gets + 1 ∧
        s'.sh.puts = s.sh.puts + (if rc = 0 then 1 else 2) ∧
        s'.sh.pool = (if rc = 0 then s.sh.pool else s.sh.pool + 1) ∧
        s'.dev.current_queue_depth =
          (if rc = 0 then s.dev.current_queue_depth else s.dev.current_queue_depth - 1)) := by
  have hdec : u64dec s.dev.current_queue_depth = s.dev.current_queue_depth - 1 :=
    u64dec_of_pos _ h1 h2
  have hinc : u64add s.dev.io_completed 1 = s.dev.io_completed + 1 := u64add_one _ h3
  have hre : u64add (s.dev.current_queue_depth - 1) 1 = s.dev.current_queue_depth := by
    rw [u64add_one]
    · omega
    · omega
  unfold task_complete submit_single_io
  cases hdraining : s.dev.is_draining <;> cases hremoved : s.dev.is_removed <;>
    by_cases hrc : rc = 0 <;>
    by_cases hoff : u64add s.dev.offset_in_ios 1 = s.dev.size_in_ios <;>
    simp [hdec, hinc, hre, hrc, hoff, hdraining, hremoved]

/-- Concrete instance of C2 (eligible device, successful resubmission). -/
theorem c2_witness :
    ∃ s', task_complete
        { dev := { is_new := false, is_removed := false, is_draining := false,
                   ctrlr := 3, io_size_blocks := 8, size_in_ios := 100,
                   io_completed := 2, prev_io_completed := 0,
                   current_queue_depth := 3, offset_in_ios := 5 },
          sh := { pool := 1, gets := 4, puts := 1, reads := 4 } } 0 = some s' ∧
      s'.dev.io_completed = 2 + 1 ∧
      (¬(false = false ∧ false = false) →
        s' = { dev := { is_new := false, is_removed := false, is_draining := false,
                        ctrlr := 3, io_size_blocks := 8, size_in_ios := 100,
                        io_completed := 2 + 1, prev_io_completed := 0,
                        current_queue_depth := 3 - 1, offset_in_ios := 5 },
               sh := { pool := 1 + 1, gets := 4, puts := 1 + 1, reads := 4 } }) ∧
      ((false = false ∧ false = false) →
        s'.sh.reads = 4 + 1 ∧
        s'.sh.gets = 4 + 1 ∧
        s'.sh.puts = 1 + (if (0 : Int) = 0 then 1 else 2) ∧
        s'.sh.pool = (if (0 : Int) = 0 then 1 else 1 + 1) ∧
        s'.dev.current_queue_depth = (if (0 : Int) = 0 then 3 else 3 - 1)) :=
  c2_task_complete _ 0 (by decide) (by decide) (by decide)

/-! Frame lemmas: fields untouched by the I/O engine operations. -/

lemma submit_single_io_frame (s : EngineState) (rc : Int) (s' : EngineState)
    (h : submit_single_io s rc = some s') :
    s'.dev.is_new = s.dev.is_new ∧ s'.dev.is_removed = s.dev.is_removed ∧
    s'.dev.is_draining = s.dev.is_draining ∧ s'.dev.ctrlr = s.dev.ctrlr ∧
    s'.dev.io_size_blocks = s.dev.io_size_blocks ∧
    s'.dev.size_in_ios = s.dev.size_in_ios ∧
    s'.dev.io_completed = s.dev.io_completed ∧
    s'.dev.prev_io_completed = s.dev.prev_io_completed := by
  unfold submit_single_io at h
  by_cases hp : s.sh.pool = 0
  · simp [hp] at h
  · by_cases hrc : rc = 0 <;>
      by_cases ho : u64add s.dev.offset_in_ios 1 = s.dev.size_in_ios <;>
      simp [hp, hrc, ho] at h <;> rw [← h] <;> simp

lemma task_complete_frame (s : EngineState) (rc : Int) (s' : EngineState)
    (h : task_complete s rc = some s') :
    s'.dev.is_new = s.dev.is_new ∧ s'.dev.is_removed = s.dev.is_removed ∧
    s'.dev.is_draining = s.dev.is_draining ∧ s'.dev.ctrlr = s.dev.ctrlr ∧
    s'.dev.io_size_blocks = s.dev.io_size_blocks ∧
    s'.dev.size_in_ios = s.dev.size_in_ios ∧
    s'.dev.prev_io_completed = s.dev.prev_io_completed := by
  unfold task_complete at h
  by_cases hc : (!s.dev.is_draining && !s.dev.is_removed) = true
  · simp only [hc, if_true] at h
    have h2 := submit_single_io_frame _ _ _ h
    simp at h2
    exact ⟨h2.1, h2.2.1, h2.2.2.1, h2.2.2.2.1, h2.2.2.2.2.1, h2.2.2.2.2.2.1,
           h2.2.2.2.2.2.2.2⟩
  · simp only [hc, if_false] at h
    rw [← Option.some.injEq] at h
    simp at h
    rw [← h]
    simp

/-- task_complete never exits: the task is put back before any resubmission,
so the pool is nonempty at the inner rte_mempool_get. -/
lemma task_complete_isSome (s : EngineState) (rc : Int) :
    ∃ s', task_complete s rc = some s' := by
  unfold task_complete submit_single_io
  by_cases hc : (!s.dev.is_draining && !s.dev.is_removed) = true <;>
    by_cases hrc : rc = 0 <;> simp [hc, hrc]

lemma check_io_frame (rcs : List Int) : ∀ s s', check_io s rcs = some s' →
    s'.dev.is_new = s.dev.is_new ∧ s'.dev.is_removed = s.dev.is_removed ∧
    s'.dev.is_draining = s.dev.is_draining ∧ s'.dev.ctrlr = s.dev.ctrlr ∧
    s'.dev.size_in_ios = s.dev.size_in_ios := by
  induction rcs with
  | nil =>
    intro s s' h
    simp [check_io] at h
    rw [← h]
    exact ⟨rfl, rfl, rfl, rfl, rfl⟩
  | cons rc rest ih =>
    intro s s' h
    unfold check_io at h
    cases htc : task_complete s rc with
    | none => rw [htc] at h; simp at h
    | some s1 =>
      rw [htc] at h
      have h1 := task_complete_frame _ _ _ htc
      have h2 := ih s1 s' h
      exact ⟨h2.1.trans h1.1, h2.2.1.trans h1.2.1, h2.2.2.1.trans h1.2.2.1,
             h2.2.2.2.1.trans h1.2.2.2.1, h2.2.2.2.2.trans h1.2.2.2.2.2.1⟩

lemma drain_loop_spec (batches : List (List Int)) : ∀ s s',
    drain_loop batches s = some s' →
    s'.dev.current_queue_depth = 0 ∧ s'.dev.is_draining = s.dev.is_draining := by
  induction batches with
  | nil =>
    intro s s' h
    unfold drain_loop at h
    by_cases hq : s.dev.current_queue_depth = 0
    · simp [hq] at h
      rw [← h]
      exact ⟨hq, rfl⟩
    · simp [hq] at h
  | cons b bs ih =>
    intro s s' h
    unfold drain_loop at h
    by_cases hq : s.dev.current_queue_depth = 0
    · simp [hq] at h
      rw [← h]
      exact ⟨hq, rfl⟩
    · simp [hq] at h
      cases hc : check_io s b with
      | none => rw [hc] at h; simp at h
      | some s1 =>
        rw [hc] at h
        have h2 := ih s1 s' h
        exact ⟨h2.1, h2.2.trans (check_io_frame b s s1 hc).2.2.1⟩

lemma drain_io_spec (s : EngineState) (batches : List (List Int)) (s' : EngineState)
    (h : drain_io s batches = some s') :
    s'.dev.current_queue_depth = 0 ∧ s'.dev.is_draining = true := by
  unfold drain_io at h
  have h2 := drain_loop_spec batches _ _ h
  simpa using h2

lemma removal_sweep_dropped (regs : List DevCtx) :
    ∀ d ∈ (removal_sweep regs).2, d.is_removed = true ∧ d.current_queue_depth = 0 := by
  induction regs with
  | nil => simp [removal_sweep]
  | cons dv ds ih =>
    intro d hd
    unfold removal_sweep at hd
    by_cases hc : (dv.is_removed && decide (dv.current_queue_depth = 0)) = true
    · simp [hc] at hd
      rcases hd with rfl | hd
      · simpa using hc
      · exact ih d hd
    · simp [hc] at hd
      exact ih d hd

lemma removal_sweep_kept (regs : List DevCtx) :
    ∀ d ∈ (removal_sweep regs).1, d ∈ regs := by
  induction regs with
  | nil => simp [removal_sweep]
  | cons dv ds ih =>
    intro d hd
    unfold removal_sweep at hd
    by_cases hc : (dv.is_removed && decide (dv.current_queue_depth = 0)) = true
    · simp [hc] at hd
      exact List.mem_cons_of_mem _ (ih d hd)
    · simp [hc] at hd
      rcases hd with rfl | hd
      · simp
      · exact List.mem_cons_of_mem _ (ih d hd)

lemma shutdown_phase_unregs (devs : List DevCtx) : ∀ sh denv i r,
    shutdown_phase sh devs denv i = some r →
    ∀ d ∈ r.2, d.current_queue_depth = 0 ∧ d.is_draining = true := by
  induction devs with
  | nil =>
    intro sh denv i r h
    simp [shutdown_phase] at h
    rw [← h]
    simp
  | cons dv ds ih =>
    intro sh denv i r h
    unfold shutdown_phase at h
    cases hd : drain_io { dev := dv, sh := sh } (denv i) with
    | none => rw [hd] at h; simp at h
    | some s1 =>
      rw [hd] at h
      dsimp only at h
      cases hs : shutdown_phase s1.sh ds denv (i + 1) with
      | none => rw [hs] at h; simp at h
      | some r1 =>
        rw [hs] at h
        simp at h
        intro d hdm
        rw [← h] at hdm
        simp at hdm
        rcases hdm with rfl | hdm
        · exact drain_io_spec _ _ _ hd
        · exact ih _ _ _ _ hs d hdm

/-! Claim C4: a descriptor is unregistered only when quiescent. -/

/-- C4: `unregister_dev` is reached only with `current_queue_depth = 0`:
the removal sweep of `io_loop` unregisters exactly descriptors that are
marked removed with zero outstanding I/O, `drain_io` returns only once the
device's `current_queue_depth` has reached zero (with `is_draining` set),
and every descriptor handed to `unregister_dev` by the shutdown phase has
been drained to zero first. -/
theorem c4_unregister_only_quiescent :
    (∀ regs, ∀ d ∈ (removal_sweep regs).2,
      d.is_removed = true ∧ d.current_queue_depth = 0) ∧
    (∀ s batches s', drain_io s batches = some s' →
      s'.dev.current_queue_depth = 0 ∧ s'.dev.is_draining = true) ∧
    (∀ sh devs denv i r, shutdown_phase sh devs denv i = some r →
      ∀ d ∈ r.2, d.current_queue_depth = 0 ∧ d.is_draining = true) :=
  ⟨removal_sweep_dropped, drain_io_spec,
   fun sh devs denv i r h => shutdown_phase_unregs devs sh denv i r h⟩

/-- Concrete instances of C4: a removed quiescent descriptor swept out of
the registry, and a one-device shutdown that drains one outstanding I/O
before unregistering. -/
theorem c4_witness :
    (({ is_new := false, is_removed := true, is_draining := false,
        ctrlr := 1, io_size_blocks := 8, size_in_ios := 100,
        io_completed := 5, prev_io_completed := 0,
        current_queue_depth := 0, offset_in_ios := 3 } : DevCtx).is_removed = true ∧
     ({ is_new := false, is_removed := true, is_draining := false,
        ctrlr := 1, io_size_blocks := 8, size_in_ios := 100,
        io_completed := 5, prev_io_completed := 0,
        current_queue_depth := 0, offset_in_ios := 3 } : DevCtx).current_queue_depth = 0) ∧
    (∀ d ∈ [({ is_new := false, is_removed := false, is_draining := true,
               ctrlr := 1, io_size_blocks := 8, size_in_ios := 100,
               io_completed := 1, prev_io_completed := 0,
               current_queue_depth := 0, offset_in_ios := 3 } : DevCtx)],
      d.current_queue_depth = 0 ∧ d.is_draining = true) :=
  ⟨c4_unregister_only_quiescent.1
      [{ is_new := false, is_removed := true, is_draining := false,
         ctrlr := 1, io_size_blocks := 8, size_in_ios := 100,
         io_completed := 5, prev_io_completed := 0,
         current_queue_depth := 0, offset_in_ios := 3 }] _ (by decide),
   fun d hd => c4_unregister_only_quiescent.2.2
      { pool := 4, gets := 1, puts := 0, reads := 1 }
      [{ is_new := false, is_removed := false, is_draining := false,
         ctrlr := 1, io_size_blocks := 8, size_in_ios := 100,
         io_completed := 0, prev_io_completed := 0,
         current_queue_depth := 1, offset_in_ios := 3 }]
      (fun _ => [[0]]) 0
      ({ pool := 5, gets := 1, puts := 1, reads := 1 },
       [{ is_new := false, is_removed := false, is_draining := true,
          ctrlr := 1, io_size_blocks := 8, size_in_ios := 100,
          io_completed := 1, prev_io_completed := 0,
          current_queue_depth := 0, offset_in_ios := 3 }])
      (by decide) d hd⟩


/-! Claim C9: uniqueness of controller handles in the registry. -/

lemma register_dev_map_ctrlr (regs : List DevCtx) (c : Candidate) :
    (register_dev regs c).1.map DevCtx.ctrlr = regs.map DevCtx.ctrlr ∨
    (register_dev regs c).1.map DevCtx.ctrlr = regs.map DevCtx.ctrlr ++ [c.ctrlr] := by
  unfold register_dev
  split_ifs <;> simp

lemma remove_cb_map_ctrlr (regs : List DevCtx) (h : Nat) :
    (remove_cb regs h).1.map DevCtx.ctrlr = regs.map DevCtx.ctrlr := by
  induction regs with
  | nil => rfl
  | cons d ds ih =>
    by_cases hd : d.ctrlr = h <;> simp [remove_cb, hd, ih]

/-- C9 counterexample: `register_dev` performs no duplicate check, so a
probe sequence that delivers two attach events for the same controller handle
leaves the registry with two descriptors sharing that handle, contradicting
the claim for arbitrary attach sequences. -/
theorem c9_counterexample :
    ¬ ((process_probe []
        [HotplugEv.attach { ctrlr := 5, has_ns := true, ns_active := true,
                            ns_size := 409600, sector_size := 512, qpair_ok := true },
         HotplugEv.attach { ctrlr := 5, has_ns := true, ns_active := true,
                            ns_size := 409600, sector_size := 512, qpair_ok := true }]).map
        DevCtx.ctrlr).Nodup := by
  decide

/-- C9 amended: provided the enumeration never delivers an attach event for a
controller handle already present in the registry nor two attach events for
the same handle (the registry itself performs no duplicate check), processing
any probe event sequence leaves the registry without two descriptors sharing
a controller handle. -/
theorem c9_no_duplicate_handles (evs : List HotplugEv) :
    ∀ regs, (regs.map DevCtx.ctrlr ++ attach_ctrlrs evs).Nodup →
    ((process_probe regs evs).map DevCtx.ctrlr).Nodup := by
  induction evs with
  | nil =>
    intro regs h
    simpa [attach_ctrlrs] using h
  | cons e evs ih =>
    intro regs h
    cases e with
    | attach c =>
      show ((process_probe (register_dev regs c).1 evs).map DevCtx.ctrlr).Nodup
      apply ih
      rcases register_dev_map_ctrlr regs c with hm | hm <;> rw [hm]
      · simp [attach_ctrlrs] at h
        refine List.Nodup.sublist ?_ h
        refine List.Sublist.append_left ?_ _
        exact (List.Sublist.refl _).cons _
      · simp [attach_ctrlrs] at h ⊢
        simpa [List.append_assoc] using h
    | remove hdl =>
      show ((process_probe (remove_cb regs hdl).1 evs).map DevCtx.ctrlr).Nodup
      apply ih
      rw [remove_cb_map_ctrlr]
      simpa [attach_ctrlrs] using h

/-- C10: whenever `io_loop` terminates it returns 0 with an empty registry —
including after a mid-run probe failure, which only breaks out of the main
loop (second conjunct) and leaves the drain-and-unregister shutdown phase to
run; `main` then returns that 0. -/
theorem c10_io_loop_returns_zero :
    (∀ sh devs passes sdenv r,
      io_loop sh devs passes sdenv = some r → r.1 = 0 ∧ r.2.2 = []) ∧
    (∀ sh devs env, env.probe_ok = false →
      io_pass sh devs env = none ∨
      ∃ r1 r2, io_pass sh devs env = some (r1, r2, true)) := by
  constructor
  · intro sh devs passes sdenv r h
    unfold io_loop at h
    cases hr : run_passes sh devs passes with
    | none => rw [hr] at h; simp at h
    | some rp =>
      rw [hr] at h
      dsimp only at h
      cases hs : shutdown_phase rp.1 rp.2 sdenv 0 with
      | none => rw [hs] at h; simp at h
      | some r' =>
        rw [hs] at h
        simp at h
        rw [← h]
        exact ⟨rfl, rfl⟩
  · intro sh devs env hpf
    unfold io_pass
    cases hsd : service_devs sh devs env.denv 0 with
    | none => exact Or.inl rfl
    | some r =>
      right
      refine ⟨r.1, process_probe r.2 env.probe_evs, ?_⟩
      simp [hpf]

/-- Concrete instance of C9 (amended): two attach events with distinct
handles 1 and 2 produce a duplicate-free registry. -/
theorem c9_witness :
    ((process_probe []
        [HotplugEv.attach { ctrlr := 1, has_ns := true, ns_active := true,
                            ns_size := 409600, sector_size := 512, qpair_ok := true },
         HotplugEv.attach { ctrlr := 2, has_ns := true, ns_active := true,
                            ns_size := 409600, sector_size := 512, qpair_ok := true }]).map
        DevCtx.ctrlr).Nodup :=
  c9_no_duplicate_handles _ [] (by decide)

/-- Concrete instances of C10: a trivial run (empty registry, one pass that
times out) returns 0 with an empty registry, and a probe-failing pass on the
same state breaks out of the loop. -/
theorem c10_witness :
    (((0 : Int), ({ pool := 8, gets := 0, puts := 0, reads := 0 } : Shared),
       ([] : List DevCtx)).1 = 0 ∧
      ((0 : Int), ({ pool := 8, gets := 0, puts := 0, reads := 0 } : Shared),
       ([] : List DevCtx)).2.2 = []) ∧
    (io_pass { pool := 8, gets := 0, puts := 0, reads := 0 } []
        { denv := fun _ => { burst_rc := fun _ => 0, compl_rcs := [] },
          probe_ok := false, probe_evs := [], time_up := false, stats_due := false } = none ∨
      ∃ r1 r2, io_pass { pool := 8, gets := 0, puts := 0, reads := 0 } []
        { denv := fun _ => { burst_rc := fun _ => 0, compl_rcs := [] },
          probe_ok := false, probe_evs := [], time_up := false, stats_due := false } =
        some (r1, r2, true)) :=
  ⟨c10_io_loop_returns_zero.1 { pool := 8, gets := 0, puts := 0, reads := 0 } []
      [{ denv := fun _ => { burst_rc := fun _ => 0, compl_rcs := [] },
         probe_ok := true, probe_evs := [], time_up := true, stats_due := false }]
      (fun _ => [])
      ((0 : Int), ({ pool := 8, gets := 0, puts := 0, reads := 0 } : Shared),
       ([] : List DevCtx)) rfl,
   c10_io_loop_returns_zero.2 _ _ _ rfl⟩

/-! Claim C8: `parse_args` and the duration flag.  The C code checks only
`if (!g_time_in_sec)`, i.e. it rejects a zero value but accepts a negative
one, so the claim that a successfully parsed duration is always positive
fails; the code guarantees only that it is nonzero. -/

/-- Helper for C8: whenever `parse_args` returns 0, the parsed duration is
nonzero (generalised over the running `g_time_in_sec` value). -/
lemma parse_args_loop_nonzero (evs : List OptEv) :
    ∀ t, (parse_args_loop evs t).1 = 0 → (parse_args_loop evs t).2 ≠ 0 := by
  induction evs with
  | nil =>
    intro t h
    by_cases ht : t = 0 <;> simp [parse_args_loop, ht] at h ⊢
  | cons e evs ih =>
    intro t h
    cases e with
    | flag_t v => exact ih v (by simpa [parse_args_loop] using h)
    | unknown => simp [parse_args_loop] at h

/-- C8 counterexample: the argument stream `-t -3` contains the duration flag
with a value that is not a positive integer, yet `parse_args` returns 0
(success) with `g_time_in_sec = -3`, contradicting the claim that such an
argument vector is rejected and that a successful parse yields a positive
duration. -/
theorem c8_counterexample :
    (parse_args [OptEv.flag_t (-3)]).1 = 0 ∧
    (parse_args [OptEv.flag_t (-3)]).2 = -3 ∧
    ¬ 0 < (parse_args [OptEv.flag_t (-3)]).2 := by
  decide

/-- C8 amended: `parse_args` requires the duration flag with a nonzero
parsed value.  When the flag is missing (or every getopt result is an
unrecognised option) it returns 1, and whenever it returns 0 the parsed
duration is nonzero — but possibly negative. -/
theorem c8_duration_nonzero :
    (∀ evs, (parse_args evs).1 = 0 → (parse_args evs).2 ≠ 0) ∧
    (∀ evs, (∀ v, OptEv.flag_t v ∉ evs) → (parse_args evs).1 = 1) := by
  constructor
  · intro evs
    exact parse_args_loop_nonzero evs 0
  · intro evs h
    cases evs with
    | nil => rfl
    | cons e evs =>
      cases e with
      | flag_t v => exact absurd (by simp) (h v)
      | unknown => rfl

/-- Concrete instances of C8 (amended): `-t 5` succeeds with a nonzero
duration; an empty argument vector is rejected with return code 1. -/
theorem c8_witness :
    (parse_args [OptEv.flag_t 5]).2 ≠ 0 ∧ (parse_args []).1 = 1 :=
  ⟨c8_duration_nonzero.1 [OptEv.flag_t 5] (by decide),
   c8_duration_nonzero.2 [] (by intro v h; simp at h)⟩

/-- Concrete instance of C6 (failure side, `rc = 1`). -/
theorem c6_witness :
    ∃ s', submit_single_io
        { dev := { is_new := false, is_removed := false, is_draining := false,
                   ctrlr := 7, io_size_blocks := 8, size_in_ios := 100,
                   io_completed := 2, prev_io_completed := 0,
                   current_queue_depth := 3, offset_in_ios := 5 },
          sh := { pool := 4, gets := 10, puts := 7, reads := 10 } } 1 = some s' ∧
      s'.sh.reads = 10 + 1 ∧
      ((1 : Int) ≠ 0 →
        s'.dev.current_queue_depth = 3 ∧ s'.sh.pool = 4 ∧
        s'.sh.gets = 10 + 1 ∧ s'.sh.puts = 7 + 1) ∧
      ((1 : Int) = 0 →
        s'.dev.current_queue_depth = 3 + 1 ∧ s'.sh.pool = 4 - 1 ∧
        s'.sh.gets = 10 + 1 ∧ s'.sh.puts = 7) :=
  c6_submit_single_io_failure_success _ 1 (by decide) (by decide)

lemma submit_single_io_cqd_le (s : EngineState) (rc : Int) (s' : EngineState)
    (h : submit_single_io s rc = some s') (hb : s.dev.current_queue_depth + 1 < U64) :
    s'.dev.current_queue_depth ≤ s.dev.current_queue_depth + 1 := by
  unfold submit_single_io at h
  by_cases hp : s.sh.pool = 0
  · simp [hp] at h
  · by_cases hrc : rc = 0 <;>
      by_cases ho : u64add s.dev.offset_in_ios 1 = s.dev.size_in_ios <;>
      simp [hp, hrc, ho] at h <;> rw [← h] <;> simp [u64add_one _ hb]

lemma submit_io_frame (n : Nat) (f : Nat → Int) : ∀ s s', submit_io s n f = some s' →
    s'.dev.is_new = s.dev.is_new ∧ s'.dev.is_removed = s.dev.is_removed ∧
    s'.dev.is_draining = s.dev.is_draining := by
  induction n with
  | zero =>
    intro s s' h
    simp [submit_io] at h
    rw [← h]
    exact ⟨rfl, rfl, rfl⟩
  | succ n ih =>
    intro s s' h
    unfold submit_io at h
    cases hs : submit_single_io s (f n) with
    | none => rw [hs] at h; simp at h
    | some s1 =>
      rw [hs] at h
      have h1 := submit_single_io_frame _ _ _ hs
      have h2 := ih s1 s' h
      exact ⟨h2.1.trans h1.1, h2.2.1.trans h1.2.1, h2.2.2.trans h1.2.2.1⟩

lemma submit_io_cqd_le (n : Nat) (f : Nat → Int) : ∀ s s', submit_io s n f = some s' →
    s.dev.current_queue_depth + n < U64 →
    s'.dev.current_queue_depth ≤ s.dev.current_queue_depth + n := by
  induction n with
  | zero =>
    intro s s' h _
    simp [submit_io] at h
    rw [← h]
    omega
  | succ n ih =>
    intro s s' h hb
    unfold submit_io at h
    cases hs : submit_single_io s (f n) with
    | none => rw [hs] at h; simp at h
    | some s1 =>
      rw [hs] at h
      have h1 : s1.dev.current_queue_depth ≤ s.dev.current_queue_depth + 1 :=
        submit_single_io_cqd_le _ _ _ hs (by omega)
      have h2 := ih s1 s' h (by omega)
      omega

lemma task_complete_cqd_le (s : EngineState) (rc : Int) (s' : EngineState)
    (h0 : 0 < s.dev.current_queue_depth) (hq : s.dev.current_queue_depth ≤ g_queue_depth)
    (h : task_complete s rc = some s') :
    s'.dev.current_queue_depth ≤ g_queue_depth := by
  have hU : s.dev.current_queue_depth < U64 := by
    have : g_queue_depth < U64 := by decide
    omega
  have hdec : u64dec s.dev.current_queue_depth = s.dev.current_queue_depth - 1 :=
    u64dec_of_pos _ h0 hU
  unfold task_complete at h
  by_cases hc : (!s.dev.is_draining && !s.dev.is_removed) = true
  · simp only [hc, if_true] at h
    have hb : s.dev.current_queue_depth - 1 + 1 < U64 := by omega
    have h2 := submit_single_io_cqd_le _ _ _ h (by simpa [hdec] using hb)
    simp [hdec] at h2
    omega
  · simp only [hc, if_false] at h
    rw [← Option.some.injEq] at h
    simp at h
    rw [← h]
    simp [hdec]
    omega

lemma check_io_inv (rcs : List Int) : ∀ s s', check_io s rcs = some s' →
    validCompl (some s) rcs = true → DevInv s.dev → DevInv s'.dev := by
  induction rcs with
  | nil =>
    intro s s' h _ hinv
    simp [check_io] at h
    rw [← h]
    exact hinv
  | cons rc rest ih =>
    intro s s' h hv hinv
    unfold check_io at h
    unfold validCompl at hv
    simp only [Bool.and_eq_true, decide_eq_true_eq] at hv
    cases htc : task_complete s rc with
    | none => rw [htc] at h; simp at h
    | some s1 =>
      rw [htc] at h
      rw [htc] at hv
      refine ih s1 s' h hv.2 ?_
      have hfr := task_complete_frame _ _ _ htc
      constructor
      · intro hnew
        exfalso
        have : s.dev.is_new = true := hfr.1 ▸ hnew
        have := hinv.1 this
        omega
      · exact task_complete_cqd_le _ _ _ hv.1 hinv.2 htc

lemma service_dev_inv (s : EngineState) (env : DevEnv) (s' : EngineState)
    (h : service_dev s env = some s') (hv : valid_service s env = true)
    (hinv : DevInv s.dev) : DevInv s'.dev := by
  unfold service_dev at h
  unfold valid_service at hv
  by_cases hnew : s.dev.is_new = true
  · simp only [hnew, if_true] at h hv
    cases hb : submit_io s g_queue_depth env.burst_rc with
    | none => rw [hb] at h; simp at h
    | some s1 =>
      rw [hb] at h hv
      dsimp only at h
      refine check_io_inv _ _ _ h hv ?_
      have hc0 : s.dev.current_queue_depth = 0 := hinv.1 hnew
      have hle := submit_io_cqd_le g_queue_depth env.burst_rc s s1 hb
        (by rw [hc0]; decide)
      constructor
      · intro hn
        simp at hn
      · show s1.dev.current_queue_depth ≤ g_queue_depth
        omega
  · have hnf : s.dev.is_new = false := by simpa using hnew
    simp only [hnf, Bool.false_eq_true, if_false] at h hv
    exact check_io_inv _ _ _ h hv hinv

lemma service_devs_inv (devs : List DevCtx) : ∀ sh denv i r,
    service_devs sh devs denv i = some r →
    valid_service_devs sh devs denv i = true →
    (∀ d ∈ devs, DevInv d) → ∀ d ∈ r.2, DevInv d := by
  induction devs with
  | nil =>
    intro sh denv i r h _ _
    simp [service_devs] at h
    rw [← h]
    simp
  | cons dv ds ih =>
    intro sh denv i r h hv hinv
    unfold service_devs at h
    unfold valid_service_devs at hv
    simp only [Bool.and_eq_true] at hv
    cases hs : service_dev { dev := dv, sh := sh } (denv i) with
    | none => rw [hs] at h; simp at h
    | some s1 =>
      rw [hs] at h hv
      dsimp only at h
      cases hrest : service_devs s1.sh ds denv (i + 1) with
      | none => rw [hrest] at h; simp at h
      | some r1 =>
        rw [hrest] at h
        simp at h
        intro d hd
        rw [← h] at hd
        simp at hd
        rcases hd with rfl | hd
        · exact service_dev_inv _ _ _ hs hv.1 (hinv dv (by simp))
        · exact ih s1.sh denv (i + 1) r1 hrest hv.2 (fun x hx => hinv x (by simp [hx])) d hd

lemma register_dev_inv (regs : List DevCtx) (c : Candidate)
    (hinv : ∀ d ∈ regs, DevInv d) : ∀ d ∈ (register_dev regs c).1, DevInv d := by
  unfold register_dev
  split_ifs <;> intro d hd <;> simp at hd
  case _ => exact hinv d hd
  case _ => exact hinv d hd
  case _ => exact hinv d hd
  case _ =>
    rcases hd with hd | rfl
    · exact hinv d hd
    · exact ⟨fun _ => rfl, by simp [g_queue_depth]⟩

lemma remove_cb_inv (c : Nat) : ∀ regs, (∀ d ∈ regs, DevInv d) →
    ∀ d ∈ (remove_cb regs c).1, DevInv d := by
  intro regs
  induction regs with
  | nil => intro _ d hd; simp [remove_cb] at hd
  | cons dv ds ih =>
    intro hinv d hd
    by_cases hc : dv.ctrlr = c
    · simp [remove_cb, hc] at hd
      rcases hd with rfl | hd
      · have h0 := hinv dv (by simp)
        exact ⟨fun h => h0.1 h, h0.2⟩
      · exact hinv d (by simp [hd])
    · simp [remove_cb, hc] at hd
      rcases hd with rfl | hd
      · exact hinv d (by simp)
      · exact ih (fun x hx => hinv x (by simp [hx])) d hd

lemma process_probe_inv (evs : List HotplugEv) : ∀ regs, (∀ d ∈ regs, DevInv d) →
    ∀ d ∈ process_probe regs evs, DevInv d := by
  induction evs with
  | nil => intro regs hinv; simpa [process_probe] using hinv
  | cons e evs ih =>
    intro regs hinv
    cases e with
    | attach c => exact ih _ (register_dev_inv regs c hinv)
    | remove hdl => exact ih _ (remove_cb_inv hdl regs hinv)

lemma removal_sweep_inv (regs : List DevCtx) (hinv : ∀ d ∈ regs, DevInv d) :
    ∀ d ∈ (removal_sweep regs).1, DevInv d :=
  fun d hd => hinv d (removal_sweep_kept regs d hd)

lemma print_stats_inv (regs : List DevCtx) (hinv : ∀ d ∈ regs, DevInv d) :
    ∀ d ∈ print_stats regs, DevInv d := by
  intro d hd
  unfold print_stats at hd
  simp at hd
  obtain ⟨x, hx, rfl⟩ := hd
  have h0 := hinv x hx
  exact ⟨fun h => h0.1 h, h0.2⟩

lemma io_pass_inv (sh : Shared) (devs : List DevCtx) (env : PassEnv)
    (r : Shared × List DevCtx × Bool)
    (h : io_pass sh devs env = some r) (hv : valid_pass sh devs env = true)
    (hinv : ∀ d ∈ devs, DevInv d) : ∀ d ∈ r.2.1, DevInv d := by
  unfold io_pass at h
  cases hs : service_devs sh devs env.denv 0 with
  | none => rw [hs] at h; simp at h
  | some r1 =>
    rw [hs] at h
    dsimp only at h
    have h1 : ∀ d ∈ r1.2, DevInv d := service_devs_inv devs sh env.denv 0 r1 hs hv hinv
    have h2 : ∀ d ∈ process_probe r1.2 env.probe_evs, DevInv d :=
      process_probe_inv env.probe_evs r1.2 h1
    by_cases hok : env.probe_ok = true
    · simp only [hok, Bool.not_true, Bool.false_eq_true, if_false] at h
      by_cases ht : env.time_up = true
      · simp only [ht, if_true] at h
        injection h with h
        subst h
        exact removal_sweep_inv _ h2
      · have htf : env.time_up = false := by simpa using ht
        simp only [htf, Bool.false_eq_true, if_false] at h
        by_cases hst : env.stats_due = true
        · simp only [hst, if_true] at h
          injection h with h
          subst h
          exact print_stats_inv _ (removal_sweep_inv _ h2)
        · have hsf : env.stats_due = false := by simpa using hst
          simp only [hsf, Bool.false_eq_true, if_false] at h
          injection h with h
          subst h
          exact removal_sweep_inv _ h2
    · have hof : env.probe_ok = false := by simpa using hok
      simp only [hof, Bool.not_false, if_true] at h
      injection h with h
      subst h
      exact h2

lemma run_passes_inv (passes : List PassEnv) : ∀ sh devs r,
    run_passes sh devs passes = some r →
    valid_passes sh devs passes = true →
    (∀ d ∈ devs, DevInv d) → ∀ d ∈ r.2, DevInv d := by
  induction passes with
  | nil =>
    intro sh devs r h _ _
    simp [run_passes] at h
  | cons e es ih =>
    intro sh devs r h hv hinv
    unfold run_passes at h
    unfold valid_passes at hv
    simp only [Bool.and_eq_true] at hv
    cases hp : io_pass sh devs e with
    | none => rw [hp] at h; simp at h
    | some r1 =>
      rw [hp] at h hv
      dsimp only at h
      have h1 : ∀ d ∈ r1.2.1, DevInv d := io_pass_inv sh devs e r1 hp hv.1 hinv
      by_cases hb : r1.2.2 = true
      · simp only [hb, if_true] at h
        injection h with h
        subst h
        exact h1
      · have hbf : r1.2.2 = false := by simpa using hb
        simp only [hbf, Bool.false_eq_true, if_false] at h
        have hv2 : valid_passes r1.1 r1.2.1 es = true := by
          have := hv.2
          simpa [hbf] using this
        exact ih r1.1 r1.2.1 r h hv2 h1

/-! Claim C1: the queue-depth invariant of the main loop. -/

/-- C1: starting from a registry whose devices satisfy the queue-depth
invariant (in particular any registry produced by `register_dev`, whose
descriptors start `New` with zero outstanding I/O), every terminating run of
main-loop passes — initial bursts of exactly `g_queue_depth` submissions for
`New` devices, completion-driven one-for-one resubmission, hotplug events and
removal sweeps — leaves every registered device with
`0 ≤ current_queue_depth ≤ g_queue_depth`.  The `valid_passes` hypothesis
states the physical property of the transport that a completion can only be
delivered for an I/O that is actually outstanding. -/
theorem c1_queue_depth_bounded (sh : Shared) (devs : List DevCtx)
    (passes : List PassEnv) (r : Shared × List DevCtx)
    (hinv : ∀ d ∈ devs, DevInv d)
    (hval : valid_passes sh devs passes = true)
    (hrun : run_passes sh devs passes = some r) :
    ∀ d ∈ r.2, 0 ≤ d.current_queue_depth ∧ d.current_queue_depth ≤ g_queue_depth :=
  fun d hd => ⟨Nat.zero_le _, (run_passes_inv passes sh devs r hrun hval hinv d hd).2⟩

/-- Concrete instance of C1: one new device serviced for one pass (initial
burst of 4 reads, then two completions with resubmission) ends the pass at
the configured queue depth 4. -/
theorem c1_witness :
    0 ≤ ({ is_new := false, is_removed := false, is_draining := false,
           ctrlr := 1, io_size_blocks := 8, size_in_ios := 100,
           io_completed := 2, prev_io_completed := 0,
           current_queue_depth := 4, offset_in_ios := 6 } : DevCtx).current_queue_depth ∧
    ({ is_new := false, is_removed := false, is_draining := false,
       ctrlr := 1, io_size_blocks := 8, size_in_ios := 100,
       io_completed := 2, prev_io_completed := 0,
       current_queue_depth := 4, offset_in_ios := 6 } : DevCtx).current_queue_depth ≤
      g_queue_depth :=
  c1_queue_depth_bounded { pool := 8, gets := 0, puts := 0, reads := 0 }
    [{ is_new := true, is_removed := false, is_draining := false,
       ctrlr := 1, io_size_blocks := 8, size_in_ios := 100,
       io_completed := 0, prev_io_completed := 0,
       current_queue_depth := 0, offset_in_ios := 0 }]
    [{ denv := fun _ => { burst_rc := fun _ => 0, compl_rcs := [0, 0] },
       probe_ok := true, probe_evs := [], time_up := true, stats_due := false }]
    ({ pool := 4, gets := 6, puts := 2, reads := 6 },
     [{ is_new := false, is_removed := false, is_draining := false,
        ctrlr := 1, io_size_blocks := 8, size_in_ios := 100,
        io_completed := 2, prev_io_completed := 0,
        current_queue_depth := 4, offset_in_ios := 6 }])
    (by intro d hd; simp at hd; subst hd; exact ⟨fun _ => rfl, by decide⟩)
    (by decide) rfl
    { is_new := false, is_removed := false, is_draining := false,
      ctrlr := 1, io_size_blocks := 8, size_in_ios := 100,
      io_completed := 2, prev_io_completed := 0,
      current_queue_depth := 4, offset_in_ios := 6 } (by decide)

end Hotplug
